import Mathlib

/-!
Verification of the SA-ADR city-simulator prototype.

Shallow embedding of `prototype/city-simulator/city_simulator.py` and
`prototype/city-simulator/edge_manager.py`: the instance partitioning
algorithm, the district lookup, gateway initialization, and the
per-gateway worker loop with its publish/buffer/retry protocol.
Machine integers of the source are modelled as `Int` (Python integers
are unbounded); Python `//` and `%` are floor division and floor
modulus, i.e. `Int.fdiv` / `Int.fmod`.
-/

namespace CitySim

/-- Embedding of `calculate_instance_edge_range` (`city_simulator.py`,
lines 156-185).  Returns the inclusive `(start, end)` range of edge
indices assigned to `instance_id`. -/
def calculate_instance_edge_range (total_edges instance_id total_instances : Int) :
    Int × Int :=
  let edges_per_instance := Int.fdiv total_edges total_instances
  let remainder := Int.fmod total_edges total_instances
  if instance_id < remainder then
    let start := instance_id * (edges_per_instance + 1)
    (start, start + edges_per_instance)
  else
    let start := instance_id * edges_per_instance + remainder
    (start, start + edges_per_instance - 1)

/-- Fallibility wrapper: the Python body performs no validation at all;
the only way it can fail is the `ZeroDivisionError` raised by
`total_edges // total_instances` when `total_instances = 0` (modelled
as `none`).  Every other input returns normally. -/
def calculate_instance_edge_range_checked (total_edges instance_id total_instances : Int) :
    Option (Int × Int) :=
  if total_instances = 0 then none
  else some (calculate_instance_edge_range total_edges instance_id total_instances)

/-- Size of an inclusive `(start, end)` range, `end - start + 1`;
a degenerate range with `end = start - 1` has size `0`. -/
def rangeSize (r : Int × Int) : Int := r.2 - r.1 + 1

/-- Closed form of the partition function for nonnegative inputs:
`start = id * b + min id r` and `end = (id+1) * b + min (id+1) r - 1`
where `b = T / n` and `r = T % n` (Euclidean = floor for `0 < n`). -/
lemma cier_closed_form (T n id : Int) (hn : 0 < n) :
    calculate_instance_edge_range T id n =
      (id * (T / n) + min id (T % n),
       (id + 1) * (T / n) + min (id + 1) (T % n) - 1) := by
  unfold calculate_instance_edge_range
  rw [Int.fdiv_eq_ediv _ hn.le, Int.fmod_eq_emod _ hn.le]
  by_cases h : id < T % n
  · have h1 : min id (T % n) = id := min_eq_left h.le
    have h2 : min (id + 1) (T % n) = id + 1 := min_eq_left (by omega)
    simp only [if_pos h, h1, h2, Prod.mk.injEq]
    exact ⟨by ring, by ring⟩
  · have h1 : min id (T % n) = T % n := min_eq_right (not_lt.mp h)
    have h2 : min (id + 1) (T % n) = T % n := min_eq_right (by omega)
    simp only [if_neg h, h1, h2, Prod.mk.injEq]
    exact ⟨trivial, by ring⟩

/-- Crossing lemma: a sequence that starts at or below `x` and ends
above `x` crosses `x` at some index. -/
lemma exists_crossing (f : Nat → Int) (x : Int) :
    ∀ m : Nat, f 0 ≤ x → x < f m → ∃ k : Nat, k < m ∧ f k ≤ x ∧ x < f (k + 1) := by
  intro m
  induction m with
  | zero => intro h0 hm; exact absurd hm (not_lt.mpr h0)
  | succ m ih =>
    intro h0 hm
    by_cases h : f m ≤ x
    · exact ⟨m, Nat.lt_succ_self m, h, hm⟩
    · obtain ⟨k, hk, h1, h2⟩ := ih h0 (lt_of_not_le h)
      exact ⟨k, Nat.lt_succ_of_lt hk, h1, h2⟩

/-- C1: the partition function splits `[0, totalItems)` over the
instances: instance `id` receives `base+1` items when `id < remainder`
and `base` otherwise; ranges are assigned contiguously in increasing
instance order with no gaps, are pairwise disjoint, cover exactly
`[0, totalItems)`, and their sizes differ by at most 1. -/
theorem partition_range_correct (T : Int) (n : Nat) (hT : 0 ≤ T) (hn : 1 ≤ n) :
    (∀ id : Nat, id < n →
        rangeSize (calculate_instance_edge_range T id n) =
          (if (id : Int) < T % n then T / n + 1 else T / n)) ∧
    (calculate_instance_edge_range T 0 n).1 = 0 ∧
    (∀ id : Nat, id + 1 < n →
        (calculate_instance_edge_range T (id + 1 : Nat) n).1 =
          (calculate_instance_edge_range T id n).2 + 1) ∧
    (∀ i j : Nat, i < j → j < n →
        (calculate_instance_edge_range T i n).2 <
          (calculate_instance_edge_range T j n).1) ∧
    (∀ x : Int, (0 ≤ x ∧ x < T) ↔
        ∃ id : Nat, id < n ∧ (calculate_instance_edge_range T id n).1 ≤ x ∧
          x ≤ (calculate_instance_edge_range T id n).2) ∧
    (∀ i j : Nat, i < n → j < n →
        rangeSize (calculate_instance_edge_range T i n) ≤
          rangeSize (calculate_instance_edge_range T j n) + 1) := by
  have hnZ : (0 : Int) < n := by exact_mod_cast hn
  set b : Int := T / n with hb
  set r : Int := T % n with hr
  have hb0 : 0 ≤ b := Int.ediv_nonneg hT hnZ.le
  have hr0 : 0 ≤ r := Int.emod_nonneg T (by omega)
  have hrn : r < n := Int.emod_lt_of_pos T hnZ
  have hform : ∀ id : Nat, calculate_instance_edge_range T id n =
      ((id : Int) * b + min (id : Int) r,
       ((id : Int) + 1) * b + min ((id : Int) + 1) r - 1) := by
    intro id
    rw [hb, hr]
    exact cier_closed_form T n id hnZ
  have hfst : ∀ id : Nat, (calculate_instance_edge_range T id n).1 =
      (id : Int) * b + min (id : Int) r := fun id => by rw [hform id]
  have hsnd : ∀ id : Nat, (calculate_instance_edge_range T id n).2 =
      ((id : Int) + 1) * b + min ((id : Int) + 1) r - 1 := fun id => by rw [hform id]
  have hzero : ((0 : Nat) : Int) * b + min ((0 : Nat) : Int) r = 0 := by
    push_cast
    rw [min_eq_left hr0]
    ring
  have hnn : ∀ k : Nat, 0 ≤ (k : Int) * b + min (k : Int) r := fun k =>
    add_nonneg (mul_nonneg (Nat.cast_nonneg k) hb0) (le_min (Nat.cast_nonneg k) hr0)
  have hmono : ∀ k l : Nat, k ≤ l →
      (k : Int) * b + min (k : Int) r ≤ (l : Int) * b + min (l : Int) r := by
    intro k l hkl
    have hkl' : (k : Int) ≤ (l : Int) := by exact_mod_cast hkl
    exact add_le_add (mul_le_mul_of_nonneg_right hkl' hb0) (min_le_min hkl' le_rfl)
  have hlast : (n : Int) * b + min (n : Int) r = T := by
    rw [min_eq_right hrn.le, hb, hr]
    exact Int.ediv_add_emod T n
  have hstep : ∀ k : Nat, ((k : Int) + 1) * b + min ((k : Int) + 1) r =
      ((k : Int) * b + min (k : Int) r) + (if (k : Int) < r then b + 1 else b) := by
    intro k
    rcases lt_or_le (k : Int) r with hc | hc
    · rw [if_pos hc, min_eq_left hc.le, min_eq_left (by omega)]
      ring
    · rw [if_neg (not_lt.mpr hc), min_eq_right hc, min_eq_right (by omega)]
      ring
  have hsize : ∀ id : Nat,
      rangeSize (calculate_instance_edge_range T id n) =
        if (id : Int) < r then b + 1 else b := by
    intro id
    rw [rangeSize, hfst id, hsnd id]
    have h := hstep id
    rcases lt_or_le (id : Int) r with hc | hc
    · rw [if_pos hc] at h ⊢
      linarith
    · rw [if_neg (not_lt.mpr hc)] at h ⊢
      linarith
  refine ⟨fun id _ => hsize id, ?_, ?_, ?_, ?_, ?_⟩
  · have h := hfst 0
    push_cast at h
    rw [h, min_eq_left hr0]
    ring
  · intro id _
    rw [hfst (id + 1), hsnd id]
    push_cast
    ring
  · intro i j hij _
    rw [hsnd i, hfst j]
    have h := hmono (i + 1) j (by omega)
    push_cast at h
    linarith
  · intro x
    constructor
    · rintro ⟨hx0, hxT⟩
      obtain ⟨k, hk, h1, h2⟩ :=
        exists_crossing (fun k : Nat => (k : Int) * b + min (k : Int) r) x n
          (hzero.le.trans hx0)
          (by show x < (n : Int) * b + min (n : Int) r
              rw [hlast]
              exact hxT)
      refine ⟨k, hk, ?_, ?_⟩
      · rw [hfst k]
        exact h1
      · rw [hsnd k]
        have h2' : x < ((k + 1 : Nat) : Int) * b + min ((k + 1 : Nat) : Int) r := h2
        push_cast at h2'
        linarith
    · rintro ⟨id, hid, h1, h2⟩
      rw [hfst id] at h1
      rw [hsnd id] at h2
      refine ⟨(hnn id).trans h1, ?_⟩
      have h3 := hmono (id + 1) n (by omega)
      rw [hlast] at h3
      push_cast at h3
      linarith
  · intro i j _ _
    rw [hsize i, hsize j]
    split_ifs <;> linarith

/-- Witness for C1 at the spec's own example `totalItems = 3459`,
`totalInstances = 4`. -/
theorem partition_range_correct_witness :
    ((0 : Int) ≤ 3459 ∧ 1 ≤ 4) ∧
    ((∀ id : Nat, id < 4 →
        rangeSize (calculate_instance_edge_range 3459 id 4) =
          (if (id : Int) < 3459 % 4 then 3459 / 4 + 1 else 3459 / 4)) ∧
    (calculate_instance_edge_range 3459 0 4).1 = 0 ∧
    (∀ id : Nat, id + 1 < 4 →
        (calculate_instance_edge_range 3459 (id + 1 : Nat) 4).1 =
          (calculate_instance_edge_range 3459 id 4).2 + 1) ∧
    (∀ i j : Nat, i < j → j < 4 →
        (calculate_instance_edge_range 3459 i 4).2 <
          (calculate_instance_edge_range 3459 j 4).1) ∧
    (∀ x : Int, (0 ≤ x ∧ x < 3459) ↔
        ∃ id : Nat, id < 4 ∧ (calculate_instance_edge_range 3459 id 4).1 ≤ x ∧
          x ≤ (calculate_instance_edge_range 3459 id 4).2) ∧
    (∀ i j : Nat, i < 4 → j < 4 →
        rangeSize (calculate_instance_edge_range 3459 i 4) ≤
          rangeSize (calculate_instance_edge_range 3459 j 4) + 1)) :=
  ⟨⟨by decide, by decide⟩, partition_range_correct 3459 4 (by decide) (by decide)⟩

/-- C3 counterexample: the source body of
`calculate_instance_edge_range` performs no parameter validation.
With `totalInstances = -2 ≤ 0` the call returns a range instead of
failing with a ConfigError, and with `instanceId = 5` outside `[0, 2)`
it also returns a range instead of failing with InvalidInstanceId. -/
theorem no_validation_counterexample :
    (calculate_instance_edge_range_checked 10 0 (-2)).isSome = true ∧
    (calculate_instance_edge_range_checked 10 5 2).isSome = true := by decide

/-- C3 amended: the partition function validates nothing.  Its only
failure is the uncaught `ZeroDivisionError` when `totalInstances = 0`
(not a ConfigError); for every other input — negative `totalInstances`
and out-of-range `instanceId` included — it returns a range normally
and no InvalidInstanceId failure exists. -/
theorem no_validation_behaviour (T id n : Int) :
    (n = 0 → calculate_instance_edge_range_checked T id n = none) ∧
    (n ≠ 0 → calculate_instance_edge_range_checked T id n =
        some (calculate_instance_edge_range T id n)) := by
  constructor
  · intro h
    simp [calculate_instance_edge_range_checked, h]
  · intro h
    simp [calculate_instance_edge_range_checked, h]

/-- Witness for C3's amended statement: `totalInstances = 0` is the
division-by-zero failure; `totalInstances = 3` returns normally. -/
theorem no_validation_behaviour_witness :
    calculate_instance_edge_range_checked 10 3 0 = none ∧
    calculate_instance_edge_range_checked 10 1 3 =
      some (calculate_instance_edge_range 10 1 3) :=
  ⟨(no_validation_behaviour 10 3 0).1 rfl, (no_validation_behaviour 10 1 3).2 (by decide)⟩

/-- Inclusive edge-index range of a district, the `edge_range` entry of
`city_config.json` (`stop` embeds the JSON key named `end`). -/
structure EdgeRange where
  start : Int
  stop : Int
deriving DecidableEq

/-- A configured district: its `district_id` and optional `edge_range`
entry.  `edge_range = none` models a missing `edge_range` key, in which
case `find_district_for_edge` defaults both bounds to `0`
(`edge_range.get('start', 0)` / `edge_range.get('end', 0)`). -/
structure District where
  district_id : String
  edge_range : Option EdgeRange
deriving DecidableEq

/-- The scan condition of `find_district_for_edge`:
`start <= edge_index <= end`, with missing keys defaulting to `0`. -/
def district_contains (d : District) (edge_index : Int) : Bool :=
  let er := d.edge_range.getD ⟨0, 0⟩
  decide (er.start ≤ edge_index ∧ edge_index ≤ er.stop)

/-- Embedding of `find_district_for_edge` (`city_simulator.py`, lines
103-121): linear scan, first matching district wins; if none matches,
`districts[0] if districts else None`. -/
def find_district_for_edge (districts : List District) (edge_index : Int) :
    Option District :=
  match districts.find? (fun d => district_contains d edge_index) with
  | some d => some d
  | none => districts.head?

/-- A `find?` over `pre ++ d :: post` returns `d` when nothing in `pre`
matches and `d` does. -/
lemma find?_first_of_prefix_false {α : Type} (p : α → Bool) :
    ∀ (pre : List α) (d : α) (post : List α), p d = true →
      (∀ d' ∈ pre, p d' = false) → (pre ++ d :: post).find? p = some d := by
  intro pre
  induction pre with
  | nil =>
    intro d post hd _
    simpa using List.find?_cons_of_pos post hd
  | cons a pre ih =>
    intro d post hd hpre
    have ha : p a = false := hpre a (List.mem_cons_self a pre)
    rw [List.cons_append, List.find?_cons_of_neg _ (by simp [ha])]
    exact ih d post hd (fun d' hd' => hpre d' (List.mem_cons_of_mem a hd'))

/-- C7: the district lookup scans the configured list in order and
returns the first district whose inclusive range contains the index;
when no district's range contains the index it falls back to the first
configured district instead of failing. -/
theorem find_district_first_match (districts : List District) (edge_index : Int)
    (h : districts ≠ []) :
    (∀ pre d post, districts = pre ++ d :: post →
        district_contains d edge_index = true →
        (∀ d' ∈ pre, district_contains d' edge_index = false) →
        find_district_for_edge districts edge_index = some d) ∧
    ((∀ d ∈ districts, district_contains d edge_index = false) →
        find_district_for_edge districts edge_index = some (districts.head h)) := by
  constructor
  · intro pre d post hds hd hpre
    unfold find_district_for_edge
    rw [hds, find?_first_of_prefix_false _ pre d post hd hpre]
  · intro hall
    have hnone : districts.find? (fun d => district_contains d edge_index) = none :=
      List.find?_eq_none.mpr (fun x hx => by simp [hall x hx])
    unfold find_district_for_edge
    rw [hnone, List.head?_eq_head h]

/-- Witness for C7: a two-district configuration; index 7 lies in the
second district's range (first match wins after a non-matching first
district), and index 99 lies in no range (fallback to the head). -/
theorem find_district_first_match_witness :
    ([⟨"d1", some ⟨0, 4⟩⟩, ⟨"d2", some ⟨5, 9⟩⟩] : List District) ≠ [] ∧
    find_district_for_edge [⟨"d1", some ⟨0, 4⟩⟩, ⟨"d2", some ⟨5, 9⟩⟩] 7 =
      some ⟨"d2", some ⟨5, 9⟩⟩ ∧
    find_district_for_edge [⟨"d1", some ⟨0, 4⟩⟩, ⟨"d2", some ⟨5, 9⟩⟩] 99 =
      some ⟨"d1", some ⟨0, 4⟩⟩ := by
  refine ⟨by decide, ?_, ?_⟩
  · exact (find_district_first_match _ 7 (by decide)).1
      [⟨"d1", some ⟨0, 4⟩⟩] ⟨"d2", some ⟨5, 9⟩⟩ [] rfl (by decide) (by decide)
  · exact (find_district_first_match _ 99 (by decide)).2 (by decide)

/-- Edge indices of this instance's inclusive assigned range,
`range(self.edge_start, self.edge_end + 1)`. -/
def instance_edge_indices (edge_start edge_end : Int) : List Int :=
  (List.range (edge_end + 1 - edge_start).toNat).map (fun k => edge_start + k)

/-- Embedding of the gateway-creating loop of
`CitySimulator._initialize_edges` (`city_simulator.py`, lines 266-317),
abstracted to the decision the claims are about: one gateway
`(edge_index, district)` is created per index in the assigned range
whose district lookup returns a district; `if not district: continue`
skips the index otherwise.  Gateway ids, random locations and sensor
configs are externally-random details not modelled. -/
def initialize_edges (districts : List District) (edge_start edge_end : Int) :
    List (Int × District) :=
  (instance_edge_indices edge_start edge_end).filterMap (fun idx =>
    (find_district_for_edge districts idx).map (fun d => (idx, d)))

/-- C10: with an empty configured district list, the lookup returns
`None` for every edge index, and gateway initialization silently
creates zero gateways for the instance's entire assigned range without
raising an error. -/
theorem empty_districts_no_gateways :
    (∀ edge_index : Int, find_district_for_edge [] edge_index = none) ∧
    (∀ edge_start edge_end : Int, initialize_edges [] edge_start edge_end = []) := by
  constructor
  · intro i
    rfl
  · intro s e
    simp [initialize_edges, find_district_for_edge]

/-- A unified gateway payload as built by
`EdgeManager.generate_gateway_payload`.  Only the `sensors` list (the
aggregated readings, whose truthiness drives the publish decision) is
modelled; the remaining payload fields (ids, location, timestamp,
metadata) play no role in any claim. -/
structure GatewayPayload (σ : Type) where
  sensors : List σ
deriving DecidableEq

/-- Appending to a `collections.deque(maxlen=cap)`: the new element is
admitted and, if the length would exceed `cap`, oldest entries (the
list front) are evicted. -/
def bufferAppend {α : Type} (cap : Nat) (buf : List α) (x : α) : List α :=
  let b := buf ++ [x]
  b.drop (b.length - cap)

/-- Embedding of `EdgeManager.send_to_kafka` (`edge_manager.py`, lines
200-236).  Whether the `future.get(timeout=10)` publish attempt
succeeds is an oracle `ok`; on failure the payload is appended to the
bounded local buffer and `False` is returned. -/
def send_to_kafka {α : Type} (ok : α → Bool) (cap : Nat) (buf : List α) (x : α) :
    Bool × List α :=
  if ok x then (true, buf) else (false, bufferAppend cap buf x)

/-- Observable outcome of one `retry_buffered_messages` call: the
payloads for which a publish was attempted, those published
successfully (in order), and the buffer contents afterwards. -/
structure RetryResult (α : Type) where
  attempted : List α
  published : List α
  buffer : List α
deriving DecidableEq

/-- The `for message in messages_to_retry` loop of
`retry_buffered_messages`: publish each batch element in FIFO order,
stopping after the first failure (whose payload the `send_to_kafka`
failure handler has just re-appended to the buffer). -/
def retryFrom {α : Type} (ok : α → Bool) (cap : Nat) :
    List α → List α → RetryResult α
  | [], buf => ⟨[], [], buf⟩
  | m :: rest, buf =>
    match send_to_kafka ok cap buf m with
    | (true, buf') =>
      let r := retryFrom ok cap rest buf'
      ⟨m :: r.attempted, m :: r.published, r.buffer⟩
    | (false, buf') => ⟨[m], [], buf'⟩

/-- Embedding of `EdgeManager.retry_buffered_messages`
(`edge_manager.py`, lines 238-257): if the buffer is nonempty, the
whole buffer is snapshotted (`list(self.local_buffer)`), cleared, and
replayed in FIFO order until the first failure. -/
def retry_buffered_messages {α : Type} (ok : α → Bool) (cap : Nat) (buf : List α) :
    RetryResult α :=
  if buf.isEmpty then ⟨[], [], buf⟩
  else retryFrom ok cap buf []

/-- What the environment does to one loop iteration: either the body
raises an exception somewhere inside the `try` block (caught by the
`except` handler), or payload generation returns a payload. -/
inductive IterEvent (σ : Type) where
  | fault
  | payload (p : GatewayPayload σ)
deriving DecidableEq

/-- Mutable state of one `EdgeManager` worker plus observation ghosts:
`iteration` is the loop counter, `buffer` the `local_buffer` contents
(oldest first), `interval` the `sampling_interval` field; `attempts`
records every `send_to_kafka` call as `(iteration, payload)`,
`published` every successful publish in order, and `waits` the timeout
passed to each inter-iteration `stop_event.wait`. -/
structure WorkerState (σ : Type) where
  iteration : Nat
  buffer : List (GatewayPayload σ)
  interval : ℚ
  attempts : List (Nat × GatewayPayload σ)
  published : List (GatewayPayload σ)
  waits : List ℚ
deriving DecidableEq

/-- The fixed capacity of the per-gateway buffer,
`deque(maxlen=1000)` (`edge_manager.py`, line 93). -/
def LOCAL_BUFFER_MAXLEN : Nat := 1000

/-- `EdgeManager.__init__`: zero iterations, empty buffer, no
observations; the sampling interval is the value `u` drawn once by
`random.uniform(2.5, 4.5)` at construction. -/
def edgeManagerInit (σ : Type) (u : ℚ) : WorkerState σ :=
  ⟨0, [], u, [], [], []⟩

/-- One iteration of the `EdgeManager.run` loop body (`edge_manager.py`,
lines 274-300), driven by `ev`: increment the counter; on a caught
exception skip straight to the wait; otherwise publish the generated
payload when its `sensors` list is truthy, drain the buffer when
`iteration % 10 == 0`, then wait the fixed sampling interval.
`pubOk it p` is the oracle for whether publishing `p` during iteration
`it` succeeds. -/
def iterStep {σ : Type} (pubOk : Nat → GatewayPayload σ → Bool) (cap : Nat)
    (ev : IterEvent σ) (s : WorkerState σ) : WorkerState σ :=
  match ev with
  | .fault =>
    { s with iteration := s.iteration + 1, waits := s.waits ++ [s.interval] }
  | .payload p =>
    let it := s.iteration + 1
    let ok := pubOk it
    let s1 : WorkerState σ :=
      if p.sensors.isEmpty then
        { s with iteration := it }
      else
        match send_to_kafka ok cap s.buffer p with
        | (true, buf') =>
          { s with iteration := it, buffer := buf',
                   attempts := s.attempts ++ [(it, p)],
                   published := s.published ++ [p] }
        | (false, buf') =>
          { s with iteration := it, buffer := buf',
                   attempts := s.attempts ++ [(it, p)] }
    let s2 : WorkerState σ :=
      if it % 10 = 0 then
        let r := retry_buffered_messages ok cap s1.buffer
        { s1 with buffer := r.buffer,
                  attempts := s1.attempts ++ r.attempted.map (fun q => (it, q)),
                  published := s1.published ++ r.published }
      else s1
    { s2 with waits := s2.waits ++ [s2.interval] }

/-- The `while not self.stop_event.is_set()` loop of `EdgeManager.run`
(`edge_manager.py`, lines 273-302): `stop k` is whether the shared stop
event is observed set at the top of the loop after `k` completed
iterations, `env k` drives iteration `k + 1`, and `fuel` bounds how
many iterations are examined. -/
def runWorker {σ : Type} (pubOk : Nat → GatewayPayload σ → Bool) (cap : Nat)
    (stop : Nat → Bool) (env : Nat → IterEvent σ) :
    Nat → WorkerState σ → WorkerState σ
  | 0, s => s
  | fuel + 1, s =>
    if stop s.iteration then s
    else runWorker pubOk cap stop env fuel (iterStep pubOk cap (env s.iteration) s)

/-- Length after a deque append: the buffer grows by one up to `cap`
and stays at `cap` from then on. -/
lemma bufferAppend_length {α : Type} (cap : Nat) (buf : List α) (x : α) :
    (bufferAppend cap buf x).length = min (buf.length + 1) cap := by
  simp [bufferAppend]
  omega

/-- A deque append is a drop of the overflow from the front. -/
lemma bufferAppend_eq {α : Type} (cap : Nat) (buf : List α) (x : α) :
    bufferAppend cap buf x = (buf ++ [x]).drop (buf.length + 1 - cap) := by
  simp [bufferAppend]

/-- Appending to an empty deque with positive capacity keeps the
element. -/
lemma bufferAppend_nil {α : Type} (cap : Nat) (hcap : 1 ≤ cap) (m : α) :
    bufferAppend cap [] m = [m] := by
  simp [bufferAppend, Nat.sub_eq_zero_of_le hcap]

/-- Folding deque appends over a sequence of items keeps exactly the
suffix that fits in `cap`. -/
lemma foldl_bufferAppend {α : Type} (cap : Nat) :
    ∀ (ps : List α) (buf : List α), buf.length ≤ cap →
      ps.foldl (bufferAppend cap) buf =
        (buf ++ ps).drop (buf.length + ps.length - cap) := by
  intro ps
  induction ps with
  | nil =>
    intro buf h
    simp [Nat.sub_eq_zero_of_le h]
  | cons x ps ih =>
    intro buf h
    have hlen := bufferAppend_length cap buf x
    have h' : (bufferAppend cap buf x).length ≤ cap := by omega
    rw [List.foldl_cons, ih _ h', hlen, bufferAppend_eq]
    rw [← List.drop_append_of_le_length
      (by simp only [List.length_append, List.length_cons, List.length_nil]; omega)]
    rw [List.drop_drop, List.append_assoc, List.singleton_append]
    simp only [List.length_cons]
    congr 1
    omega

/-- C4: the gateway buffer never exceeds its fixed capacity after any
sequence of appends; appending at capacity evicts exactly the oldest
entry and admits the new one; and `N` consecutive publish failures
starting from an empty buffer leave exactly the newest `min(N, C)`
payloads, the older ones evicted. -/
theorem buffer_bounded_eviction {α : Type} (cap : Nat) (hcap : 1 ≤ cap) :
    (∀ (buf : List α) (x : α), (bufferAppend cap buf x).length ≤ cap) ∧
    (∀ (buf : List α) (x : α), buf.length = cap →
        bufferAppend cap buf x = buf.tail ++ [x]) ∧
    (∀ ps : List α,
        ps.foldl (fun buf p => (send_to_kafka (fun _ => false) cap buf p).2) [] =
          ps.drop (ps.length - cap)) ∧
    (∀ ps : List α,
        (ps.foldl (fun buf p => (send_to_kafka (fun _ => false) cap buf p).2) []).length =
          min ps.length cap) := by
  have hfold : ∀ ps : List α,
      ps.foldl (fun buf p => (send_to_kafka (fun _ => false) cap buf p).2) [] =
        ps.drop (ps.length - cap) := by
    intro ps
    have hfun : (fun (buf : List α) (p : α) => (send_to_kafka (fun _ => false) cap buf p).2)
        = bufferAppend cap := by
      funext buf p
      simp [send_to_kafka]
    rw [hfun, foldl_bufferAppend cap ps [] (by simp)]
    simp
  refine ⟨?_, ?_, hfold, ?_⟩
  · intro buf x
    have := bufferAppend_length cap buf x
    omega
  · intro buf x hbuf
    rw [bufferAppend_eq, hbuf]
    have h1 : cap + 1 - cap = 1 := by omega
    rw [h1, List.drop_append_of_le_length (by omega), List.drop_one]
  · intro ps
    rw [hfold ps]
    simp
    omega

/-- Witness for C4 at the source's fixed capacity `1000`. -/
theorem buffer_bounded_eviction_witness :
    1 ≤ LOCAL_BUFFER_MAXLEN ∧
    ((∀ (buf : List Nat) (x : Nat),
        (bufferAppend LOCAL_BUFFER_MAXLEN buf x).length ≤ LOCAL_BUFFER_MAXLEN) ∧
    (∀ (buf : List Nat) (x : Nat), buf.length = LOCAL_BUFFER_MAXLEN →
        bufferAppend LOCAL_BUFFER_MAXLEN buf x = buf.tail ++ [x]) ∧
    (∀ ps : List Nat,
        ps.foldl (fun buf p => (send_to_kafka (fun _ => false) LOCAL_BUFFER_MAXLEN buf p).2) [] =
          ps.drop (ps.length - LOCAL_BUFFER_MAXLEN)) ∧
    (∀ ps : List Nat,
        (ps.foldl (fun buf p =>
            (send_to_kafka (fun _ => false) LOCAL_BUFFER_MAXLEN buf p).2) []).length =
          min ps.length LOCAL_BUFFER_MAXLEN)) :=
  ⟨by decide, buffer_bounded_eviction LOCAL_BUFFER_MAXLEN (by decide)⟩

/-- Unfolding the drain loop on a successful head. -/
lemma retryFrom_cons_pos {α : Type} (ok : α → Bool) (cap : Nat) (m : α)
    (rest buf : List α) (h : ok m = true) :
    retryFrom ok cap (m :: rest) buf =
      ⟨m :: (retryFrom ok cap rest buf).attempted,
       m :: (retryFrom ok cap rest buf).published,
       (retryFrom ok cap rest buf).buffer⟩ := by
  simp [retryFrom, send_to_kafka, h]

/-- Unfolding the drain loop on a failing head: the loop breaks and the
failure handler has re-appended the failing payload. -/
lemma retryFrom_cons_neg {α : Type} (ok : α → Bool) (cap : Nat) (m : α)
    (rest buf : List α) (h : ok m = false) :
    retryFrom ok cap (m :: rest) buf = ⟨[m], [], bufferAppend cap buf m⟩ := by
  simp [retryFrom, send_to_kafka, h]

/-- Characterization of the drain loop: attempts are the longest
successful prefix plus the first failure (if any), exactly the prefix
is published, and the buffer afterwards is the input buffer with just
the first failure appended. -/
lemma retryFrom_eq {α : Type} (ok : α → Bool) (cap : Nat) :
    ∀ (msgs buf : List α),
      retryFrom ok cap msgs buf =
        ⟨msgs.takeWhile ok ++ (msgs.dropWhile ok).take 1,
         msgs.takeWhile ok,
         match msgs.dropWhile ok with
         | [] => buf
         | m :: _ => bufferAppend cap buf m⟩ := by
  intro msgs
  induction msgs with
  | nil => intro buf; rfl
  | cons m rest ih =>
    intro buf
    by_cases h : ok m
    · rw [retryFrom_cons_pos ok cap m rest buf h, ih buf]
      simp [List.takeWhile_cons, List.dropWhile_cons, h]
    · have h' : ok m = false := by simpa using h
      rw [retryFrom_cons_neg ok cap m rest buf h']
      simp [List.takeWhile_cons, List.dropWhile_cons, h']

/-- Characterization of `retry_buffered_messages`: the buffer is
snapshotted and cleared, the longest successful prefix is re-published
in FIFO order, and afterwards the buffer holds only the first failing
payload (re-appended by the publish failure handler). -/
lemma retry_buffered_messages_eq {α : Type} (ok : α → Bool) (cap : Nat) (buf : List α) :
    retry_buffered_messages ok cap buf =
      ⟨buf.takeWhile ok ++ (buf.dropWhile ok).take 1,
       buf.takeWhile ok,
       match buf.dropWhile ok with
       | [] => []
       | m :: _ => bufferAppend cap [] m⟩ := by
  unfold retry_buffered_messages
  by_cases h : buf.isEmpty
  · cases buf with
    | nil => rfl
    | cons a l => simp at h
  · rw [if_neg h, retryFrom_eq]

/-- A scan that accepts every element of `good` and rejects `bad`
splits `good ++ bad :: rest` at exactly that point. -/
lemma takeWhile_dropWhile_split {α : Type} (p : α → Bool) :
    ∀ (good : List α) (bad : α) (rest : List α),
      (∀ m ∈ good, p m = true) → p bad = false →
      (good ++ bad :: rest).takeWhile p = good ∧
      (good ++ bad :: rest).dropWhile p = bad :: rest := by
  intro good
  induction good with
  | nil =>
    intro bad rest _ hbad
    simp [List.takeWhile_cons, List.dropWhile_cons, hbad]
  | cons a good ih =>
    intro bad rest hall hbad
    have ha : p a = true := hall a (List.mem_cons_self a good)
    have hr := ih bad rest (fun m hm => hall m (List.mem_cons_of_mem a hm)) hbad
    simp [List.takeWhile_cons, List.dropWhile_cons, ha, hr.1, hr.2]

/-- A scan that accepts everything takes the whole list. -/
lemma takeWhile_dropWhile_all {α : Type} (p : α → Bool) :
    ∀ buf : List α, (∀ m ∈ buf, p m = true) →
      buf.takeWhile p = buf ∧ buf.dropWhile p = [] := by
  intro buf
  induction buf with
  | nil => intro; exact ⟨rfl, rfl⟩
  | cons a l ih =>
    intro hall
    have ha : p a = true := hall a (List.mem_cons_self a l)
    have hr := ih (fun m hm => hall m (List.mem_cons_of_mem a hm))
    simp [List.takeWhile_cons, List.dropWhile_cons, ha, hr.1, hr.2]

/-- C2: on every 10th iteration of the worker loop the buffer is
drained: its entire contents are removed as one batch and replayed in
original FIFO order, stopping at the first publish failure; the failing
payload alone is re-appended to the buffer by the publish failure
handler, and every batch message after it is neither published nor
re-buffered — it is lost.  On iterations not divisible by 10 the buffer
is left to the fresh send alone. -/
theorem drain_every_tenth_lossy {σ : Type} (cap : Nat) (hcap : 1 ≤ cap) :
    (∀ (ok : GatewayPayload σ → Bool) (good : List (GatewayPayload σ))
        (bad : GatewayPayload σ) (rest : List (GatewayPayload σ)),
        (∀ m ∈ good, ok m = true) → ok bad = false →
        retry_buffered_messages ok cap (good ++ bad :: rest) =
          ⟨good ++ [bad], good, [bad]⟩) ∧
    (∀ (ok : GatewayPayload σ → Bool) (buf : List (GatewayPayload σ)),
        (∀ m ∈ buf, ok m = true) →
        retry_buffered_messages ok cap buf = ⟨buf, buf, []⟩) ∧
    (∀ (pubOk : Nat → GatewayPayload σ → Bool) (s : WorkerState σ)
        (p : GatewayPayload σ), (s.iteration + 1) % 10 ≠ 0 →
        (iterStep pubOk cap (.payload p) s).buffer =
          (if p.sensors.isEmpty then s.buffer
           else (send_to_kafka (pubOk (s.iteration + 1)) cap s.buffer p).2)) ∧
    (∀ (pubOk : Nat → GatewayPayload σ → Bool) (s : WorkerState σ)
        (p : GatewayPayload σ), (s.iteration + 1) % 10 = 0 →
        (iterStep pubOk cap (.payload p) s).buffer =
          (retry_buffered_messages (pubOk (s.iteration + 1)) cap
            (if p.sensors.isEmpty then s.buffer
             else (send_to_kafka (pubOk (s.iteration + 1)) cap s.buffer p).2)).buffer ∧
        (iterStep pubOk cap (.payload p) s).published =
          (if p.sensors.isEmpty then s.published
           else if pubOk (s.iteration + 1) p then s.published ++ [p]
           else s.published) ++
          (retry_buffered_messages (pubOk (s.iteration + 1)) cap
            (if p.sensors.isEmpty then s.buffer
             else (send_to_kafka (pubOk (s.iteration + 1)) cap s.buffer p).2)).published) := by
  refine ⟨?_, ?_, ?_, ?_⟩
  · intro ok good bad rest hg hb
    have hs := takeWhile_dropWhile_split ok good bad rest hg hb
    rw [retry_buffered_messages_eq, hs.1, hs.2]
    simp [bufferAppend_nil cap hcap]
  · intro ok buf hall
    have hs := takeWhile_dropWhile_all ok buf hall
    rw [retry_buffered_messages_eq, hs.1, hs.2]
    simp
  · intro pubOk s p hmod
    by_cases hsens : p.sensors.isEmpty
    · simp [iterStep, hsens, hmod]
    · by_cases hok : pubOk (s.iteration + 1) p
      · simp [iterStep, send_to_kafka, hsens, hok, hmod]
      · simp [iterStep, send_to_kafka, hsens, hok, hmod]
  · intro pubOk s p hmod
    by_cases hsens : p.sensors.isEmpty
    · simp [iterStep, hsens, hmod]
    · by_cases hok : pubOk (s.iteration + 1) p
      · simp [iterStep, send_to_kafka, hsens, hok, hmod]
      · simp [iterStep, send_to_kafka, hsens, hok, hmod]

/-- Witness for C2 at the source's fixed capacity `1000`. -/
theorem drain_every_tenth_lossy_witness :
    1 ≤ LOCAL_BUFFER_MAXLEN ∧
    ((∀ (ok : GatewayPayload Nat → Bool) (good : List (GatewayPayload Nat))
        (bad : GatewayPayload Nat) (rest : List (GatewayPayload Nat)),
        (∀ m ∈ good, ok m = true) → ok bad = false →
        retry_buffered_messages ok LOCAL_BUFFER_MAXLEN (good ++ bad :: rest) =
          ⟨good ++ [bad], good, [bad]⟩) ∧
    (∀ (ok : GatewayPayload Nat → Bool) (buf : List (GatewayPayload Nat)),
        (∀ m ∈ buf, ok m = true) →
        retry_buffered_messages ok LOCAL_BUFFER_MAXLEN buf = ⟨buf, buf, []⟩) ∧
    (∀ (pubOk : Nat → GatewayPayload Nat → Bool) (s : WorkerState Nat)
        (p : GatewayPayload Nat), (s.iteration + 1) % 10 ≠ 0 →
        (iterStep pubOk LOCAL_BUFFER_MAXLEN (.payload p) s).buffer =
          (if p.sensors.isEmpty then s.buffer
           else (send_to_kafka (pubOk (s.iteration + 1)) LOCAL_BUFFER_MAXLEN s.buffer p).2)) ∧
    (∀ (pubOk : Nat → GatewayPayload Nat → Bool) (s : WorkerState Nat)
        (p : GatewayPayload Nat), (s.iteration + 1) % 10 = 0 →
        (iterStep pubOk LOCAL_BUFFER_MAXLEN (.payload p) s).buffer =
          (retry_buffered_messages (pubOk (s.iteration + 1)) LOCAL_BUFFER_MAXLEN
            (if p.sensors.isEmpty then s.buffer
             else (send_to_kafka (pubOk (s.iteration + 1)) LOCAL_BUFFER_MAXLEN s.buffer p).2)).buffer ∧
        (iterStep pubOk LOCAL_BUFFER_MAXLEN (.payload p) s).published =
          (if p.sensors.isEmpty then s.published
           else if pubOk (s.iteration + 1) p then s.published ++ [p]
           else s.published) ++
          (retry_buffered_messages (pubOk (s.iteration + 1)) LOCAL_BUFFER_MAXLEN
            (if p.sensors.isEmpty then s.buffer
             else (send_to_kafka (pubOk (s.iteration + 1)) LOCAL_BUFFER_MAXLEN s.buffer p).2)).published)) :=
  ⟨by decide, drain_every_tenth_lossy LOCAL_BUFFER_MAXLEN (by decide)⟩

/-- Every execution of the loop body increments the iteration counter
by exactly one, faulted or not. -/
lemma iterStep_iteration {σ : Type} (pubOk : Nat → GatewayPayload σ → Bool)
    (cap : Nat) (ev : IterEvent σ) (s : WorkerState σ) :
    (iterStep pubOk cap ev s).iteration = s.iteration + 1 := by
  cases ev with
  | fault => rfl
  | payload p =>
    simp only [iterStep, send_to_kafka]
    split_ifs <;> rfl

/-- The loop body never writes the `sampling_interval` field. -/
lemma iterStep_interval {σ : Type} (pubOk : Nat → GatewayPayload σ → Bool)
    (cap : Nat) (ev : IterEvent σ) (s : WorkerState σ) :
    (iterStep pubOk cap ev s).interval = s.interval := by
  cases ev with
  | fault => rfl
  | payload p =>
    simp only [iterStep, send_to_kafka]
    split_ifs <;> rfl

/-- Every execution of the loop body ends with exactly one
interruptible wait, whose timeout is the worker's fixed interval. -/
lemma iterStep_waits {σ : Type} (pubOk : Nat → GatewayPayload σ → Bool)
    (cap : Nat) (ev : IterEvent σ) (s : WorkerState σ) :
    (iterStep pubOk cap ev s).waits = s.waits ++ [s.interval] := by
  cases ev with
  | fault => rfl
  | payload p =>
    simp only [iterStep, send_to_kafka]
    split_ifs <;> rfl

/-- C5: the stop event is sticky (`hmono`: once set it stays set, as a
`threading.Event` that is only ever `set()`); if it is set by the time
`t` iterations have completed, the worker never runs an iteration
beyond `t` — it finishes at most the in-flight iteration — and, given
enough fuel, the run ends in a state where the worker has observed the
signal at the top of its loop and exited normally (the run function
total-returns a state; nothing propagates out of the loop). -/
theorem shutdown_observed {σ : Type} (pubOk : Nat → GatewayPayload σ → Bool)
    (cap : Nat) (stop : Nat → Bool) (env : Nat → IterEvent σ)
    (hmono : ∀ i, stop i = true → stop (i + 1) = true)
    (t : Nat) (ht : stop t = true) :
    ∀ (fuel : Nat) (s : WorkerState σ),
      (runWorker pubOk cap stop env fuel s).iteration ≤ max s.iteration t ∧
      (t + 1 ≤ fuel + s.iteration →
        stop (runWorker pubOk cap stop env fuel s).iteration = true) := by
  have hge : ∀ u, t ≤ u → stop u = true := by
    intro u hu
    induction hu with
    | refl => exact ht
    | step _ ih => exact hmono _ ih
  intro fuel
  induction fuel with
  | zero =>
    intro s
    refine ⟨le_max_left _ _, fun h => hge s.iteration (by omega)⟩
  | succ fuel ih =>
    intro s
    rw [runWorker]
    by_cases hs : stop s.iteration
    · rw [if_pos hs]
      exact ⟨le_max_left _ _, fun _ => hs⟩
    · rw [if_neg hs]
      have hlt : s.iteration < t := by
        by_contra hc
        exact hs (hge s.iteration (by omega))
      have hit := iterStep_iteration pubOk cap (env s.iteration) s
      obtain ⟨h1, h2⟩ := ih (iterStep pubOk cap (env s.iteration) s)
      constructor
      · refine le_trans h1 ?_
        rw [hit]
        exact max_le (le_trans hlt (le_max_right _ _)) (le_max_right _ _)
      · intro h
        apply h2
        rw [hit]
        omega

/-- Witness for C5: with the stop signal set from the first completed
iteration on, a worker driven by faults exits by observing the signal. -/
theorem shutdown_observed_witness :
    (∀ i, (fun k => decide (1 ≤ k)) i = true → (fun k => decide (1 ≤ k)) (i + 1) = true) ∧
    (fun k => decide (1 ≤ k)) 1 = true ∧
    (∀ (fuel : Nat) (s : WorkerState Nat),
      (runWorker (fun _ _ => true) LOCAL_BUFFER_MAXLEN (fun k => decide (1 ≤ k))
          (fun _ => IterEvent.fault) fuel s).iteration ≤ max s.iteration 1 ∧
      (1 + 1 ≤ fuel + s.iteration →
        (fun k => decide (1 ≤ k))
          ((runWorker (fun _ _ => true) LOCAL_BUFFER_MAXLEN (fun k => decide (1 ≤ k))
            (fun _ => IterEvent.fault) fuel s).iteration) = true)) :=
  ⟨fun i h => by simp only [decide_eq_true_eq] at h ⊢; omega,
   by decide,
   shutdown_observed (fun _ _ => true) LOCAL_BUFFER_MAXLEN (fun k => decide (1 ≤ k))
     (fun _ => IterEvent.fault)
     (fun i h => by simp only [decide_eq_true_eq] at h ⊢; omega)
     1 (by decide)⟩

/-- C6: an exception inside one iteration is caught by the loop's
handler: the faulted step only advances the iteration counter and
performs the same interruptible wait with the same fixed interval —
buffer, publish attempts and published messages are untouched — and
the run continues with the next iteration exactly as if the fault had
not happened; a single iteration's fault never terminates the worker. -/
theorem worker_fault_tolerant {σ : Type} (pubOk : Nat → GatewayPayload σ → Bool)
    (cap : Nat) (stop : Nat → Bool) (env : Nat → IterEvent σ) (fuel : Nat)
    (s : WorkerState σ) (hev : env s.iteration = IterEvent.fault)
    (hstop : stop s.iteration = false) :
    runWorker pubOk cap stop env (fuel + 1) s =
      runWorker pubOk cap stop env fuel
        { s with iteration := s.iteration + 1, waits := s.waits ++ [s.interval] } ∧
    (iterStep pubOk cap IterEvent.fault s).buffer = s.buffer ∧
    (iterStep pubOk cap IterEvent.fault s).published = s.published ∧
    (iterStep pubOk cap IterEvent.fault s).attempts = s.attempts ∧
    (iterStep pubOk cap IterEvent.fault s).waits = s.waits ++ [s.interval] := by
  refine ⟨?_, rfl, rfl, rfl, rfl⟩
  rw [runWorker, if_neg (by simp [hstop]), hev]
  rfl

/-- Witness for C6: a worker that faults on its first iteration
continues running. -/
theorem worker_fault_tolerant_witness :
    (fun _ : Nat => (IterEvent.fault : IterEvent Nat)) (edgeManagerInit Nat 3).iteration =
      IterEvent.fault ∧
    (fun _ : Nat => false) (edgeManagerInit Nat 3).iteration = false ∧
    (runWorker (fun _ _ => true) LOCAL_BUFFER_MAXLEN (fun _ => false)
        (fun _ => IterEvent.fault) (2 + 1) (edgeManagerInit Nat 3) =
      runWorker (fun _ _ => true) LOCAL_BUFFER_MAXLEN (fun _ => false)
        (fun _ => IterEvent.fault) 2
        { edgeManagerInit Nat 3 with
            iteration := (edgeManagerInit Nat 3).iteration + 1,
            waits := (edgeManagerInit Nat 3).waits ++ [(edgeManagerInit Nat 3).interval] } ∧
    (iterStep (fun _ _ => true) LOCAL_BUFFER_MAXLEN IterEvent.fault
        (edgeManagerInit Nat 3)).buffer = (edgeManagerInit Nat 3).buffer ∧
    (iterStep (fun _ _ => true) LOCAL_BUFFER_MAXLEN IterEvent.fault
        (edgeManagerInit Nat 3)).published = (edgeManagerInit Nat 3).published ∧
    (iterStep (fun _ _ => true) LOCAL_BUFFER_MAXLEN IterEvent.fault
        (edgeManagerInit Nat 3)).attempts = (edgeManagerInit Nat 3).attempts ∧
    (iterStep (fun _ _ => true) LOCAL_BUFFER_MAXLEN IterEvent.fault
        (edgeManagerInit Nat 3)).waits =
      (edgeManagerInit Nat 3).waits ++ [(edgeManagerInit Nat 3).interval]) :=
  ⟨rfl, rfl,
   worker_fault_tolerant (fun _ _ => true) LOCAL_BUFFER_MAXLEN (fun _ => false)
     (fun _ => IterEvent.fault) 2 (edgeManagerInit Nat 3) rfl rfl⟩

/-- The run loop preserves the interval field and only ever logs waits
equal to the worker's own interval. -/
lemma runWorker_interval_waits {σ : Type} (pubOk : Nat → GatewayPayload σ → Bool)
    (cap : Nat) (stop : Nat → Bool) (env : Nat → IterEvent σ) :
    ∀ (fuel : Nat) (s : WorkerState σ),
      (runWorker pubOk cap stop env fuel s).interval = s.interval ∧
      ∀ w ∈ (runWorker pubOk cap stop env fuel s).waits, w ∈ s.waits ∨ w = s.interval := by
  intro fuel
  induction fuel with
  | zero => intro s; exact ⟨rfl, fun w hw => Or.inl hw⟩
  | succ fuel ih =>
    intro s
    rw [runWorker]
    by_cases hs : stop s.iteration
    · rw [if_pos hs]
      exact ⟨rfl, fun w hw => Or.inl hw⟩
    · rw [if_neg hs]
      obtain ⟨h1, h2⟩ := ih (iterStep pubOk cap (env s.iteration) s)
      have hint := iterStep_interval pubOk cap (env s.iteration) s
      have hwaits := iterStep_waits pubOk cap (env s.iteration) s
      refine ⟨h1.trans hint, ?_⟩
      intro w hw
      rcases h2 w hw with h | h
      · rw [hwaits] at h
        rcases List.mem_append.mp h with h' | h'
        · exact Or.inl h'
        · right
          simpa using h'
      · right
        rw [h, hint]

/-- C9: the sampling interval is drawn exactly once at construction
from the bounded uniform range `[2.5, 4.5]` and never reassigned:
after any run the worker's interval field still holds the constructed
value, and every inter-iteration wait — including the wait after a
faulted iteration — used exactly that value. -/
theorem sampling_interval_fixed {σ : Type} (u : ℚ)
    (_hu : 5 / 2 ≤ u ∧ u ≤ 9 / 2)
    (pubOk : Nat → GatewayPayload σ → Bool) (cap : Nat)
    (stop : Nat → Bool) (env : Nat → IterEvent σ) (fuel : Nat) :
    (edgeManagerInit σ u).interval = u ∧
    (runWorker pubOk cap stop env fuel (edgeManagerInit σ u)).interval = u ∧
    ∀ w ∈ (runWorker pubOk cap stop env fuel (edgeManagerInit σ u)).waits, w = u := by
  obtain ⟨h1, h2⟩ := runWorker_interval_waits pubOk cap stop env fuel (edgeManagerInit σ u)
  refine ⟨rfl, h1, ?_⟩
  intro w hw
  rcases h2 w hw with h | h
  · simp [edgeManagerInit] at h
  · exact h

/-- Witness for C9 at the draw `u = 3 ∈ [2.5, 4.5]`. -/
theorem sampling_interval_fixed_witness :
    (5 / 2 ≤ (3 : ℚ) ∧ (3 : ℚ) ≤ 9 / 2) ∧
    ((edgeManagerInit Nat 3).interval = 3 ∧
    (runWorker (fun _ _ => false) LOCAL_BUFFER_MAXLEN (fun _ => false)
        (fun _ => IterEvent.fault) 5 (edgeManagerInit Nat 3)).interval = 3 ∧
    ∀ w ∈ (runWorker (fun _ _ => false) LOCAL_BUFFER_MAXLEN (fun _ => false)
        (fun _ => IterEvent.fault) 5 (edgeManagerInit Nat 3)).waits, w = 3) :=
  ⟨⟨by norm_num, by norm_num⟩,
   sampling_interval_fixed 3 ⟨by norm_num, by norm_num⟩ (fun _ _ => false)
     LOCAL_BUFFER_MAXLEN (fun _ => false) (fun _ => IterEvent.fault) 5⟩

/-- C8 counterexample: in this run, publishing always fails; iteration
1 buffers the payload `⟨[1]⟩`, iterations 2-10 assemble payloads with
no sensor readings, yet during iteration 10 — whose own payload has no
sensors — the 10th-iteration drain replays the buffered message, so a
publish call tagged `(10, ⟨[1]⟩)` is recorded in that very iteration,
refuting "no publish call is made in an iteration whose assembled
payload contains no sensor readings". -/
theorem skip_publish_counterexample :
    (fun k => if k = 0 then IterEvent.payload (⟨[1]⟩ : GatewayPayload Nat)
              else IterEvent.payload ⟨[]⟩) 9 = IterEvent.payload ⟨[]⟩ ∧
    (10, (⟨[1]⟩ : GatewayPayload Nat)) ∈
      (runWorker (fun _ _ => false) LOCAL_BUFFER_MAXLEN (fun _ => false)
        (fun k => if k = 0 then IterEvent.payload (⟨[1]⟩ : GatewayPayload Nat)
                  else IterEvent.payload ⟨[]⟩)
        10 (edgeManagerInit Nat 3)).attempts := by decide

/-- C8 amended: an assembled payload with an empty sensors list makes
the worker skip the fresh publish without treating it as an error; on
an iteration that is not a multiple of 10 this means no publish call
at all happens in that iteration (a 10th-iteration drain may still
replay previously buffered payloads); consequently a gateway whose
payloads never contain sensors — e.g. one with zero configured
sensors — makes no publish call during its entire run. -/
theorem skip_publish_empty_sensors {σ : Type}
    (pubOk : Nat → GatewayPayload σ → Bool) (cap : Nat) :
    (∀ (s : WorkerState σ) (p : GatewayPayload σ), p.sensors = [] →
        (s.iteration + 1) % 10 ≠ 0 →
        (iterStep pubOk cap (.payload p) s).attempts = s.attempts ∧
        (iterStep pubOk cap (.payload p) s).buffer = s.buffer ∧
        (iterStep pubOk cap (.payload p) s).published = s.published) ∧
    (∀ (stop : Nat → Bool) (env : Nat → IterEvent σ) (fuel : Nat)
        (s : WorkerState σ),
        s.buffer = [] → s.attempts = [] →
        (∀ (k : Nat) (q : GatewayPayload σ), env k = .payload q → q.sensors = []) →
        (runWorker pubOk cap stop env fuel s).attempts = [] ∧
        (runWorker pubOk cap stop env fuel s).buffer = []) := by
  have hstep : ∀ (s : WorkerState σ), s.buffer = [] → s.attempts = [] →
      ∀ ev : IterEvent σ, (∀ q, ev = .payload q → q.sensors = []) →
      (iterStep pubOk cap ev s).buffer = [] ∧ (iterStep pubOk cap ev s).attempts = [] := by
    intro s hb ha ev hev
    cases ev with
    | fault => exact ⟨hb, ha⟩
    | payload q =>
      have hq : q.sensors = [] := hev q rfl
      by_cases hmod : (s.iteration + 1) % 10 = 0
      · simp [iterStep, hq, hmod, hb, ha, retry_buffered_messages]
      · simp [iterStep, hq, hmod, hb, ha]
  constructor
  · intro s p hp hmod
    simp [iterStep, hp, hmod]
  · intro stop env fuel
    induction fuel with
    | zero =>
      intro s hb ha _
      exact ⟨ha, hb⟩
    | succ fuel ih =>
      intro s hb ha henv
      rw [runWorker]
      by_cases hs : stop s.iteration
      · rw [if_pos hs]
        exact ⟨ha, hb⟩
      · rw [if_neg hs]
        obtain ⟨hb', ha'⟩ := hstep s hb ha (env s.iteration) (fun q h => henv s.iteration q h)
        exact ih (iterStep pubOk cap (env s.iteration) s) hb' ha' henv

/-- Witness for C8's amended statement: a skipped fresh publish on a
non-drain iteration, and a zero-sensor gateway's full run with no
publish call at all. -/
theorem skip_publish_empty_sensors_witness :
    ((⟨[]⟩ : GatewayPayload Nat).sensors = [] ∧
      ((edgeManagerInit Nat 3).iteration + 1) % 10 ≠ 0) ∧
    ((iterStep (fun _ _ => false) LOCAL_BUFFER_MAXLEN (.payload ⟨[]⟩)
        (edgeManagerInit Nat 3)).attempts = (edgeManagerInit Nat 3).attempts ∧
      (iterStep (fun _ _ => false) LOCAL_BUFFER_MAXLEN (.payload ⟨[]⟩)
        (edgeManagerInit Nat 3)).buffer = (edgeManagerInit Nat 3).buffer ∧
      (iterStep (fun _ _ => false) LOCAL_BUFFER_MAXLEN (.payload ⟨[]⟩)
        (edgeManagerInit Nat 3)).published = (edgeManagerInit Nat 3).published) ∧
    ((runWorker (fun _ _ => false) LOCAL_BUFFER_MAXLEN (fun _ => false)
        (fun _ => IterEvent.payload ⟨[]⟩) 12 (edgeManagerInit Nat 3)).attempts = [] ∧
      (runWorker (fun _ _ => false) LOCAL_BUFFER_MAXLEN (fun _ => false)
        (fun _ => IterEvent.payload ⟨[]⟩) 12 (edgeManagerInit Nat 3)).buffer = []) :=
  ⟨⟨rfl, by decide⟩,
   (skip_publish_empty_sensors (fun _ _ => false) LOCAL_BUFFER_MAXLEN).1
     (edgeManagerInit Nat 3) ⟨[]⟩ rfl (by decide),
   (skip_publish_empty_sensors (fun _ _ => false) LOCAL_BUFFER_MAXLEN).2
     (fun _ => false) (fun _ => IterEvent.payload ⟨[]⟩) 12 (edgeManagerInit Nat 3)
     rfl rfl (fun _ q h => by cases h; rfl)⟩

end CitySim
